import Mathlib

/-!
Verification of the `mdp.linear_flows` pipeline engine (`Flow`,
`CheckpointFlow`) against its natural-language specification.

The Python source is shallowly embedded: the `Flow` container and its
operations, the training orchestrator, the execution engine and the
crash-recovery protocol are translated into executable Lean functions.
Processing units ("nodes") are external collaborators of the engine; they
are modelled from the spec's capability contract (input and output
dimensions, trainability, training phases, transform, inverse transform),
with their transform behaviour deep-embedded so that everything stays
decidable.  In-place mutation in the Python code becomes explicit state
passing: a mutating container operation returns the resulting container
together with the exception it raised, if any; a raised exception before
the final commit assignment corresponds to returning the original
container.  File writes performed by the crash dumper are returned as an
explicit list of (filename, snapshot) events.
-/

/-- Deep-embedded behaviour of a node's `execute` (and `inverse`) transform.
Modelled from the spec: units are external collaborators whose transform is
an arbitrary array-to-array function that may raise. -/
inductive ExecB where
  | idn : ExecB
  | mapAdd (k : Int) : ExecB
  | constOut (v : List Int) : ExecB
  | failWith (msg : String) : ExecB
deriving DecidableEq

/-- Modelled from the spec: the ProcessingUnit capability contract
(`input_dim`, `output_dim`, `is_trainable`, `is_training`,
`get_remaining_train_phase`, `train`, `stop_training`, `execute`,
`inverse`).  `trainLog` and `stopCount` record the calls the engine makes,
so that theorems can observe them.  `trainFail` / `stopFail` let a unit be
forced to fail, as the spec's crash-recovery tests require. -/
@[ext]
structure Node where
  name : String := "Node"
  input_dim : Option Nat := none
  output_dim : Option Nat := none
  trainable : Bool := true
  training : Bool := true
  remaining : Nat := 1
  train_seq_len : Nat := 1
  execB : ExecB := .idn
  invB : ExecB := .idn
  trainFail : Option String := none
  stopFail : Option String := none
  trainLog : List (List Int × List (List Int)) := []
  stopCount : Nat := 0
deriving DecidableEq

def dfltNode : Node := {}

instance : Inhabited Node := ⟨dfltNode⟩

/-- Interpret a deep-embedded transform behaviour. -/
def runExecB : ExecB → List Int → Except String (List Int)
  | .idn, x => .ok x
  | .mapAdd k, x => .ok (x.map (· + k))
  | .constOut v, _ => .ok v
  | .failWith m, _ => .error m

/-- `node.execute(x)`. -/
def node_execute (n : Node) (x : List Int) : Except String (List Int) :=
  runExecB n.execB x

/-- `node.inverse(x)`. -/
def node_inverse (n : Node) (x : List Int) : Except String (List Int) :=
  runExecB n.invB x

/-- Python exception values raised by the engine (and by nodes). -/
inductive PyErr where
  | flowException (msg : String) : PyErr
  | flowExceptionCR (msg : String) (filename : Option String) (parent : PyErr) : PyErr
  | typeError (msg : String) : PyErr
  | valueError (msg : String) : PyErr
  | indexError (msg : String) : PyErr
  | trainingFinished : PyErr
  | generic (msg : String) : PyErr
deriving DecidableEq

deriving instance DecidableEq for Except

/-- `node.train(x, *args)`: appends to the node's call log; fails with the
node's forced failure if set, or with `TrainingFinishedException` when the
node is not in its training phase (spec contract of `stop_training`/`train`). -/
def node_train (n : Node) (x : List Int) (args : List (List Int)) : Except PyErr Node :=
  match n.trainFail with
  | some m => .error (.generic m)
  | none =>
    if n.training then
      .ok { n with trainLog := n.trainLog ++ [(x, args)] }
    else
      .error .trainingFinished

/-- `node.stop_training()`: closes the current training phase, decrementing
the remaining-phase count; fails with `TrainingFinishedException` when no
phase is open (spec contract), or with the node's forced failure if set. -/
def node_stop_training (n : Node) : Except PyErr Node :=
  match n.stopFail with
  | some m => .error (.generic m)
  | none =>
    if n.training then
      .ok { n with remaining := n.remaining - 1,
                   training := decide (n.remaining - 1 ≠ 0),
                   stopCount := n.stopCount + 1 }
    else
      .error .trainingFinished

/-- The node state after a successful `stop_training` call: one phase
closed, the training flag cleared when no phase remains. -/
def stoppedNode (n : Node) : Node :=
  { n with remaining := n.remaining - 1,
           training := decide (n.remaining - 1 ≠ 0),
           stopCount := n.stopCount + 1 }

/-- The `_crash_recovery` attribute: `0`, `1`, or a filename string. -/
inductive CrashRec where
  | off : CrashRec
  | on_ : CrashRec
  | file (s : String) : CrashRec
deriving DecidableEq

/-- Python truthiness of the `_crash_recovery` value (`if rec:`):
`0` is falsy, `1` truthy, a string truthy iff nonempty. -/
def CrashRec.truthy : CrashRec → Bool
  | .off => false
  | .on_ => true
  | .file s => s ≠ ""

/-- The concrete container class of a flow (`self.__class__`). -/
inductive FlowClass where
  | flow : FlowClass
  | simpleFlow : FlowClass
  | checkpointFlow : FlowClass
deriving DecidableEq

/-- The `Flow` object state: its class, its node list (`self.flow`), its
crash-recovery setting and its instance dictionary (`self.__dict__`
entries added by checkpoints; later entries override earlier ones). -/
structure MFlow where
  cls : FlowClass := .flow
  nodes : List Node := []
  crashRec : CrashRec := .off
  attrs : List (String × Int) := []
deriving DecidableEq

/-- Format a dimension value for the mismatch message. -/
def fmtDim : Option Nat → String
  | none => "None"
  | some k => toString k

/-- The `ValueError` message of `_check_dimension_consistency`. -/
def dimMismatchMsg (out inp : Option Nat) : String :=
  "dimensions mismatch: " ++ fmtDim out ++ " != " ++ fmtDim inp

/-- Python truthiness of a dimension value. -/
def pyTruthyDim : Option Nat → Bool
  | none => false
  | some k => k ≠ 0

/-- Python `out and inp` on dimension values. -/
def pyAndDim (out inp : Option Nat) : Option Nat :=
  if pyTruthyDim out then inp else out

/-- `Flow._check_dimension_consistency`: raise `ValueError` when
`((out and inp) is not None) and out != inp`. -/
def check_dimension_consistency (out inp : Option Nat) : Except PyErr Unit :=
  if (pyAndDim out inp).isSome ∧ out ≠ inp then
    .error (.valueError (dimMismatchMsg out inp))
  else
    .ok ()

/-- The pairwise loop of `_check_nodes_consistency`, with the previous
node carried along: checks `prev.output_dim` against the head's
`input_dim`, then recurses. -/
def check_pairs : Node → List Node → Except PyErr Unit
  | _, [] => .ok ()
  | prev, n :: rest =>
    match check_dimension_consistency prev.output_dim n.input_dim with
    | .error e => .error e
    | .ok _ => check_pairs n rest

/-- `Flow._check_nodes_consistency`: check every adjacent pair of a node
list, in order, raising at the first inconsistent pair. -/
def check_nodes_consistency : List Node → Except PyErr Unit
  | [] => .ok ()
  | n :: rest => check_pairs n rest

/-- `Flow.__init__`: validates the node sequence, then builds the flow
with crash recovery disabled. -/
def flow_init (cls : FlowClass) (nodes : List Node) : Except PyErr MFlow :=
  match check_nodes_consistency nodes with
  | .error e => .error e
  | .ok _ => .ok { cls := cls, nodes := nodes, crashRec := .off, attrs := [] }

/-- Python list indexing `l[i]` with negative-index support;
raises `IndexError` out of range. -/
def listGetInt (l : List Node) (i : Int) : Except PyErr Node :=
  let n : Int := l.length
  let j := if i < 0 then i + n else i
  if 0 ≤ j ∧ j < n then .ok (l.getD j.toNat dfltNode)
  else .error (.indexError "list index out of range")

/-- Python list item assignment `l[i] = v` (on the copy). -/
def listSetInt (l : List Node) (i : Int) (v : Node) : Except PyErr (List Node) :=
  let n : Int := l.length
  let j := if i < 0 then i + n else i
  if 0 ≤ j ∧ j < n then .ok (l.set j.toNat v)
  else .error (.indexError "list assignment index out of range")

/-- Python list item deletion `del l[i]` (on the copy). -/
def listDelInt (l : List Node) (i : Int) : Except PyErr (List Node) :=
  let n : Int := l.length
  let j := if i < 0 then i + n else i
  if 0 ≤ j ∧ j < n then .ok (l.eraseIdx j.toNat)
  else .error (.indexError "list assignment index out of range")

/-- Resolve one endpoint of a simple (step-free) slice against length `n`:
`none` maps to the default, a negative index is offset by `n` and clipped
at `0`, a nonnegative index is clipped at `n`. -/
def resolveEndpoint (n : Nat) (dflt : Nat) (v : Option Int) : Nat :=
  match v with
  | none => dflt
  | some i =>
    if i < 0 then (i + n).toNat
    else min i.toNat n

/-- Python simple slice read `l[a:b]`. -/
def listGetSlice (l : List Node) (a b : Option Int) : List Node :=
  let s := resolveEndpoint l.length 0 a
  let e := resolveEndpoint l.length l.length b
  (l.drop s).take (e - s)

/-- Python simple slice assignment `l[a:b] = v` (on the copy). -/
def listSetSlice (l : List Node) (a b : Option Int) (v : List Node) : List Node :=
  let s := resolveEndpoint l.length 0 a
  let e := resolveEndpoint l.length l.length b
  l.take s ++ v ++ l.drop (max s e)

/-- Python simple slice deletion `del l[a:b]` (on the copy). -/
def listDelSlice (l : List Node) (a b : Option Int) : List Node :=
  let s := resolveEndpoint l.length 0 a
  let e := resolveEndpoint l.length l.length b
  l.take s ++ l.drop (max s e)

/-- A key/value pair for `__setitem__`: an integer key with a single node,
or a simple slice key with a node list. -/
inductive SetKey where
  | at_ (i : Int) (v : Node) : SetKey
  | range_ (a b : Option Int) (v : List Node) : SetKey

/-- A key for `__delitem__`. -/
inductive DelKey where
  | at_ (i : Int) : DelKey
  | range_ (a b : Option Int) : DelKey

/-- The check-then-commit tail shared by the mutating container
operations: `self.flow` is copied and modified into `l2`;
`_check_nodes_consistency` runs on the prospective list; only if no
exception was raised is the new sequence accepted (`self.flow = l2`).
The pair returned is (container state after the call, raised exception). -/
def commitIfConsistent (fl : MFlow) (l2 : List Node) : MFlow × Option PyErr :=
  match check_nodes_consistency l2 with
  | .error e => (fl, some e)
  | .ok _ => ({ fl with nodes := l2 }, none)

/-- `Flow.__setitem__`: copy the node list, perform the assignment on the
copy, check dimension consistency, and commit only on success. -/
def flow_setitem (fl : MFlow) (k : SetKey) : MFlow × Option PyErr :=
  match k with
  | .at_ i v =>
    match listSetInt fl.nodes i v with
    | .error e => (fl, some e)
    | .ok l2 => commitIfConsistent fl l2
  | .range_ a b v => commitIfConsistent fl (listSetSlice fl.nodes a b v)

/-- `Flow.__delitem__`: copy, delete on the copy, check, commit. -/
def flow_delitem (fl : MFlow) (k : DelKey) : MFlow × Option PyErr :=
  match k with
  | .at_ i =>
    match listDelInt fl.nodes i with
    | .error e => (fl, some e)
    | .ok l2 => commitIfConsistent fl l2
  | .range_ a b => commitIfConsistent fl (listDelSlice fl.nodes a b)

/-- `Flow.append(x)`, implemented as `self[len(self):len(self)] = [x]`. -/
def flow_append (fl : MFlow) (x : Node) : MFlow × Option PyErr :=
  flow_setitem fl (.range_ (some fl.nodes.length) (some fl.nodes.length) [x])

/-- `Flow.insert(i, x)`, implemented as `self[i:i] = [x]`. -/
def flow_insert (fl : MFlow) (i : Int) (x : Node) : MFlow × Option PyErr :=
  flow_setitem fl (.range_ (some i) (some i) [x])

/-- The right operand of `extend` / `__add__`: either a `Flow` instance
(possibly of a subclass) or some other Python value, of which only the
type name matters. -/
inductive FlowOrOther where
  | flowv (g : MFlow) : FlowOrOther
  | nonflow (tyname : String) : FlowOrOther

/-- The `TypeError` message of `extend` and `__add__`. -/
def concatTypeMsg (tyname : String) : String :=
  "can only concatenate flow (not " ++ tyname ++ ") to flow"

/-- `Flow.extend(x)`: requires a `Flow` instance, else `TypeError`; then
`self[len(self):len(self)] = x`. -/
def flow_extend (fl : MFlow) (x : FlowOrOther) : MFlow × Option PyErr :=
  match x with
  | .nonflow t => (fl, some (.typeError (concatTypeMsg t)))
  | .flowv g =>
    flow_setitem fl (.range_ (some fl.nodes.length) (some fl.nodes.length) g.nodes)

/-- `Flow.pop(i)`: `x = self[i]; del self[i]; return x`.  The result pairs
the container state after the call with the popped node or the exception. -/
def flow_pop (fl : MFlow) (i : Int) : MFlow × Except PyErr Node :=
  match listGetInt fl.nodes i with
  | .error e => (fl, .error e)
  | .ok x =>
    match flow_delitem fl (.at_ i) with
    | (fl2, some e) => (fl2, .error e)
    | (fl2, none) => (fl2, .ok x)

/-- `Flow.__add__`: requires the right operand to be a `Flow` instance,
else `TypeError`; concatenates the node lists, checks consistency, and
returns a new container of the left operand's class.  The left container
is never mutated. -/
def flow_add (fl : MFlow) (other : FlowOrOther) : Except PyErr MFlow :=
  match other with
  | .nonflow t => .error (.typeError (concatTypeMsg t))
  | .flowv g =>
    let l2 := fl.nodes ++ g.nodes
    match check_nodes_consistency l2 with
    | .error e => .error e
    | .ok _ => .ok { cls := fl.cls, nodes := l2, crashRec := .off, attrs := [] }

/-- A key for `__getitem__`: an integer, or a full slice with step. -/
inductive GetKey where
  | at_ (i : Int) : GetKey
  | range_ (a b step : Option Int) : GetKey

/-- The result of `__getitem__`: a single node or a sub-flow. -/
inductive GetOut where
  | node (n : Node) : GetOut
  | sub (f : MFlow) : GetOut
deriving DecidableEq

/-- The index sequence selected by an extended slice `a:b:k` on a list of
length `n`, following Python slice resolution: endpoints are offset when
negative and clipped to the valid range for the step's direction, and the
indices advance by the step while strictly inside the stop bound. -/
def sliceIndices (n : Nat) (a b step : Option Int) : Except PyErr (List Nat) :=
  let k := step.getD 1
  if k = 0 then .error (.valueError "slice step cannot be zero")
  else if k > 0 then
    let s : Int := match a with
      | none => 0
      | some i => if i < 0 then max (i + n) 0 else min i n
    let e : Int := match b with
      | none => n
      | some i => if i < 0 then max (i + n) 0 else min i n
    let cnt : Nat := if e ≤ s then 0 else ((e - s - 1) / k + 1).toNat
    .ok ((List.range cnt).map (fun j => (s + k * j).toNat))
  else
    let s : Int := match a with
      | none => (n : Int) - 1
      | some i => if i < 0 then max (i + n) (-1) else min i ((n : Int) - 1)
    let e : Int := match b with
      | none => -1
      | some i => if i < 0 then max (i + n) (-1) else min i ((n : Int) - 1)
    let cnt : Nat := if s ≤ e then 0 else ((s - e - 1) / (-k) + 1).toNat
    .ok ((List.range cnt).map (fun j => (s + k * j).toNat))

/-- Python extended slice read `l[a:b:k]` on a node list. -/
def listGetSliceStep (l : List Node) (a b step : Option Int) : Except PyErr (List Node) :=
  match sliceIndices l.length a b step with
  | .error e => .error e
  | .ok idxs => .ok (idxs.map (fun j => l.getD j dfltNode))

/-- `Flow.__getitem__`: a slice key selects the subsequence, re-checks its
dimension consistency, and wraps it in a new container of the same class
(`self.__class__(flow_slice)`); an integer key returns the node at that
index with no consistency check. -/
def flow_getitem (fl : MFlow) (k : GetKey) : Except PyErr GetOut :=
  match k with
  | .range_ a b step =>
    match listGetSliceStep fl.nodes a b step with
    | .error e => .error e
    | .ok sl =>
      match check_nodes_consistency sl with
      | .error e => .error e
      | .ok _ =>
        match flow_init fl.cls sl with
        | .error e => .error e
        | .ok f2 => .ok (.sub f2)
  | .at_ i =>
    match listGetInt fl.nodes i with
    | .error e => .error e
    | .ok x => .ok (.node x)

/-- Crash-dump write events: (filename, snapshot of the node sequence). -/
abbrev Dumps := List (String × List Node)

/-- The 40-dash separator used in the composed diagnostic. -/
def fortyDashes : String := "----------------------------------------"

/-- A printable message for a Python exception value. -/
def errText : PyErr → String
  | .flowException m => m
  | .flowExceptionCR m _ _ => m
  | .typeError m => "TypeError: " ++ m
  | .valueError m => "ValueError: " ++ m
  | .indexError m => "IndexError: " ++ m
  | .trainingFinished => "TrainingFinishedException"
  | .generic m => m

/-- Stand-in for `traceback.format_exception` applied to the parent
exception: the formatted text of the original failure. -/
def format_exception (e : PyErr) : String := errText e

/-- The per-node diagnostic line of `_propagate_exception`. -/
def nodeDiagLine (nodenr : Nat) (tyname : String) : String :=
  "\n! Exception in node #" ++ toString nodenr ++ " (" ++ tyname ++ "):\n"

/-- The full diagnostic composed by `_propagate_exception` before the
crash-recovery constructor possibly appends the dump location. -/
def diagMsg (nodenr : Nat) (tyname : String) (e : PyErr) : String :=
  "\n" ++ fortyDashes ++ nodeDiagLine nodenr tyname ++ "Node Traceback:\n"
    ++ format_exception e ++ fortyDashes

/-- The dump-location line appended by `FlowExceptionCR.__init__`. -/
def dumpInfoLine (name : String) : String :=
  "\nA crash dump is available on: \"" ++ name ++ "\""

/-- `FlowExceptionCR.__init__` on an already-composed message: when the
flow's crash recovery is armed, a crash dump of the flow is written to the
caller-chosen filename (string setting) or to a tempfile-chosen name, the
dump location is appended to the message and recorded on the exception.
`temp` stands for the name the `tempfile` module would choose. -/
def flowExceptionCR_init (temp : String) (cr : CrashRec) (snapshot : List Node)
    (errstr : String) (parent : PyErr) : PyErr × Dumps :=
  if cr.truthy then
    let chosen : Option String := match cr with
      | .file s => some s
      | _ => none
    let name := chosen.getD temp
    (.flowExceptionCR (errstr ++ dumpInfoLine name) (some name) parent,
      [(name, snapshot)])
  else
    (.flowExceptionCR errstr none parent, [])

/-- `Flow._propagate_exception`: composes the diagnostic naming the node
index and its type, and raises a `FlowExceptionCR` carrying the diagnostic
and the parent exception, writing a crash dump first when armed. -/
def propagate_exception (temp : String) (cr : CrashRec) (nodes : List Node)
    (e : PyErr) (nodenr : Nat) : PyErr × Dumps :=
  flowExceptionCR_init temp cr nodes
    (diagMsg nodenr (nodes.getD nodenr dfltNode).name e) e

/-- The loop body of `_execute_seq`: starting at index `i`, apply `cnt`
successive nodes to `x`; a node failure is routed through
`_propagate_exception` with that node's index. -/
def execLoop (temp : String) (cr : CrashRec) (nodes : List Node) :
    Nat → Nat → List Int → Except (PyErr × Dumps) (List Int)
  | _, 0, x => .ok x
  | i, cnt + 1, x =>
    if i < nodes.length then
      match node_execute (nodes.getD i dfltNode) x with
      | .error m => .error (propagate_exception temp cr nodes (.generic m) i)
      | .ok y => execLoop temp cr nodes (i + 1) cnt y
    else
      -- `flow[i]` raises IndexError; the handler's own `self.flow[nodenr]`
      -- raises it again, so the bare IndexError escapes
      .error (.indexError "list index out of range", [])

/-- `Flow._execute_seq(x, nodenr)`: filters `x` through nodes `0..nodenr`
included; `nodenr = None` means the last node. -/
def execute_seq (temp : String) (cr : CrashRec) (nodes : List Node)
    (x : List Int) (nodenr : Option Nat) : Except (PyErr × Dumps) (List Int) :=
  let cnt := match nodenr with
    | none => nodes.length
    | some k => k + 1
  execLoop temp cr nodes 0 cnt x

/-- The input of `Flow.execute`: a single bulk array, or an iterable of
batch arrays (`isinstance(iterator, numx.ndarray)` distinguishes them). -/
inductive ExecInput where
  | arr (x : List Int) : ExecInput
  | seq (xs : List (List Int)) : ExecInput

/-- The batch loop of `Flow.execute`: apply `_execute_seq` to every batch,
collecting outputs. -/
def execBatches (temp : String) (cr : CrashRec) (nodes : List Node)
    (nodenr : Option Nat) : List (List Int) → Except (PyErr × Dumps) (List (List Int))
  | [] => .ok []
  | x :: rest =>
    match execute_seq temp cr nodes x nodenr with
    | .error e => .error e
    | .ok y =>
      match execBatches temp cr nodes nodenr rest with
      | .error e => .error e
      | .ok ys => .ok (y :: ys)

/-- `Flow.execute(iterator, nodenr)`: a single array is filtered through
the chain directly; an iterable of batches is processed batch by batch and
the per-batch outputs are concatenated (`numx.concatenate`) in order. -/
def flow_execute (temp : String) (fl : MFlow) (inp : ExecInput)
    (nodenr : Option Nat) : Except (PyErr × Dumps) (List Int) :=
  match inp with
  | .arr x => execute_seq temp fl.crashRec fl.nodes x nodenr
  | .seq xs =>
    match execBatches temp fl.crashRec fl.nodes nodenr xs with
    | .error e => .error e
    | .ok ys => .ok ys.flatten

/-- The loop body of `_inverse_seq`: apply the inverse transforms of the
nodes at indices `cnt-1, cnt-2, ..., 0` to `x`. -/
def invLoop (temp : String) (cr : CrashRec) (nodes : List Node) :
    Nat → List Int → Except (PyErr × Dumps) (List Int)
  | 0, x => .ok x
  | cnt + 1, x =>
    match node_inverse (nodes.getD cnt dfltNode) x with
    | .error m => .error (propagate_exception temp cr nodes (.generic m) cnt)
    | .ok y => invLoop temp cr nodes cnt y

/-- `Flow._inverse_seq(x)`: inverts `x` through all nodes backwards. -/
def inverse_seq (temp : String) (cr : CrashRec) (nodes : List Node)
    (x : List Int) : Except (PyErr × Dumps) (List Int) :=
  invLoop temp cr nodes nodes.length x

/-- Specification-side description of sequential execution: apply each
node's transform in order over a node list (used to compare `_execute_seq`
against the spec's "sequentially applies each unit's transform"). -/
def chainApply : List Node → List Int → Except String (List Int)
  | [], x => .ok x
  | n :: rest, x =>
    match node_execute n x with
    | .error m => .error m
    | .ok y => chainApply rest y

/-- One item produced by a data iterator: a bare array, or a tuple whose
first element is the sample and whose remaining elements are extra
training arguments (`isinstance(x, (list, tuple))` in the source). -/
inductive Item where
  | arr (x : List Int) : Item
  | tup (first : List Int) (rest : List (List Int)) : Item
deriving DecidableEq

/-- The sample part of an item (`x[0]` for tuples, `x` otherwise). -/
def item_sample : Item → List Int
  | .arr x => x
  | .tup f _ => f

/-- The extra-argument part of an item (`x[1:]` for tuples, `()` otherwise). -/
def item_args : Item → List (List Int)
  | .arr _ => []
  | .tup _ r => r

/-- The Python kind of a per-node data source: a generator object, a
single-pass iterator that is not a generator, or a (restartable) list. -/
inductive SourceKind where
  | generator : SourceKind
  | listIterator : SourceKind
  | pyList : SourceKind
deriving DecidableEq

/-- Whether a source of this kind can be iterated more than once. -/
def SourceKind.restartable : SourceKind → Bool
  | .pyList => true
  | _ => false

/-- `type(iter) is types.GeneratorType`. -/
def SourceKind.isGenerator : SourceKind → Bool
  | .generator => true
  | _ => false

/-- A per-node data source: its Python kind and the items one full
traversal yields. -/
structure DataSource where
  kind : SourceKind := .pyList
  items : List Item := []
deriving DecidableEq

/-- One entry of the `data_iterators` list: `None`, an iterable source, or
some non-iterable object of which only the type name matters. -/
inductive Entry where
  | noneE : Entry
  | srcE (s : DataSource) : Entry
  | badE (tyname : String) : Entry
deriving DecidableEq

/-- The `data_iterators` argument of `train`: a single bulk array, a list
of per-node entries, or some other object. -/
inductive DataArg where
  | arr (x : List Int) : DataArg
  | list (l : List Entry) : DataArg
  | other (tyname : String) : DataArg

/-- The items yielded by iterating a source on pass `passIdx`: a
non-restartable source is exhausted after its first traversal. -/
def passItems (src : DataSource) (passIdx : Nat) : List Item :=
  if passIdx = 0 || src.kind.restartable then src.items else []

/-- The iterability-check loop of `_train_check_iterators`: raises for the
first entry that is neither `None` nor iterable, naming its position. -/
def check_iterable_entries : Nat → List Entry → Except PyErr Unit
  | _, [] => .ok ()
  | i, e :: rest =>
    match e with
    | .badE _ =>
      .error (.flowException ("Element number " ++ toString i
        ++ " in the iterators list is not a list or iterator."))
    | _ => check_iterable_entries (i + 1) rest

/-- Whether a `data_iterators` entry is a generator object. -/
def entryIsGenerator : Entry → Bool
  | .srcE s => s.kind.isGenerator
  | _ => false

/-- The generator-check loop of `_train_check_iterators`: a node with
multiple training phases (`len(node._train_seq) > 1`) paired with a
generator-typed iterator is rejected, because generators cannot be
rewound. -/
def check_generators : Nat → List (Node × Entry) → Except PyErr Unit
  | _, [] => .ok ()
  | i, (n, e) :: rest =>
    if n.train_seq_len > 1 ∧ entryIsGenerator e then
      .error (.flowException ("Node number " ++ toString i
        ++ " has multiple training phases but the corresponding iterator is a"
        ++ " generator. This is not allowed since generators cannot be"
        ++ " rewinded for further training."))
    else
      check_generators (i + 1) rest

/-- `Flow._train_check_iterators`: broadcasts a bulk array to one
single-item list per node; otherwise requires a list, checks every entry
is iterable, checks the count matches the number of nodes, and checks
that no multi-phase node is paired with a generator. -/
def train_check_iterators (nodes : List Node) (d : DataArg) : Except PyErr (List Entry) :=
  match d with
  | .arr x => .ok (List.replicate nodes.length (.srcE { kind := .pyList, items := [.arr x] }))
  | .other t =>
    .error (.flowException ("data_iterators is " ++ t
      ++ " must be either a list of iterators or an array"))
  | .list l =>
    match check_iterable_entries 0 l with
    | .error e => .error e
    | .ok _ =>
      if l.length ≠ nodes.length then
        .error (.flowException (toString l.length ++ " data iterators specified, "
          ++ toString nodes.length ++ " needed"))
      else
        match check_generators 0 (nodes.zip l) with
        | .error e => .error e
        | .ok _ => .ok l

/-- The warning emitted when a non-trainable node receives data. -/
def warn_not_trainable (i : Nat) : String :=
  "Node " ++ toString i ++ " is not trainable"

/-- The warning emitted when a node signals its training already finished. -/
def warn_finished (i : Nat) : String :=
  "Node " ++ toString i ++ " training phase already finished"

/-- The `FlowException` message for a training node given a `None` iterator. -/
def noneTrainingMsg (i : Nat) : String :=
  "\n! Node " ++ toString i ++ " is training but received a None iterator."

/-- The `TypeError` Python raises when iterating `None`. -/
def noneIterMsg : String := "NoneType object is not iterable"

/-- Filter a sample through the nodes preceding `nodenr`
(`if nodenr > 0: x = self._execute_seq(x, nodenr-1)`). -/
def filterPrev (temp : String) (cr : CrashRec) (nodes : List Node)
    (nodenr : Nat) (x : List Int) : Except (PyErr × Dumps) (List Int) :=
  if nodenr > 0 then execute_seq temp cr nodes x (some (nodenr - 1)) else .ok x

/-- Outcome of one traversal of the `for x in data_iterator` loop body
sequence: normal completion with the updated node, interception of a
`TrainingFinishedException` (downgraded to a warning by the caller), or a
propagated crash-recovery exception. -/
inductive PassOut where
  | ok (n : Node) : PassOut
  | finished (n : Node) : PassOut
  | err (e : PyErr × Dumps) : PassOut
deriving DecidableEq

/-- One full traversal of the data iterator inside `_train_node`'s `try`
block: each item is split into sample and extra arguments, the sample is
filtered through the preceding nodes, and the node is trained on the
result.  Any exception escaping `_execute_seq` or a non-`finished`
training failure is re-raised through `_propagate_exception` with this
node's index; a `TrainingFinishedException` is intercepted. -/
def train_pass (temp : String) (cr : CrashRec) (nodes : List Node)
    (nodenr : Nat) : Node → List Item → PassOut
  | node, [] => .ok node
  | node, item :: rest =>
    match filterPrev temp cr nodes nodenr (item_sample item) with
    | .error (e, d) =>
      let (e2, d2) := propagate_exception temp cr nodes e nodenr
      .err (e2, d ++ d2)
    | .ok x2 =>
      match node_train node x2 (item_args item) with
      | .error .trainingFinished => .finished node
      | .error e =>
        let (e2, d2) := propagate_exception temp cr nodes e nodenr
        .err (e2, d2)
      | .ok n2 => train_pass temp cr nodes nodenr n2 rest

/-- The `while True` loop of `_train_node`: traverse the iterator; if the
node still has more than one remaining training phase, close the current
phase with `stop_training` and traverse again (a non-restartable source
yields nothing on later traversals); otherwise stop.  Exceptions follow
the source's two `except` clauses.  The loop is driven by a structural
counter anchored at the node's remaining-phase count when entered: under
the modelled unit contract each `stop_training` decrements the remaining
count in lockstep with the counter, so the zero-counter fallback is
unreachable. -/
def train_loop (temp : String) (cr : CrashRec) (nodes : List Node)
    (nodenr : Nat) (src : DataSource) :
    Nat → Node → Nat → Except (PyErr × Dumps) (Node × List String)
  | fuel, node, passIdx =>
    match train_pass temp cr nodes nodenr node (passItems src passIdx) with
    | .err e => .error e
    | .finished n => .ok (n, [warn_finished nodenr])
    | .ok n =>
      if n.remaining > 1 then
        match node_stop_training n with
        | .error .trainingFinished => .ok (n, [warn_finished nodenr])
        | .error e => .error (propagate_exception temp cr nodes e nodenr)
        | .ok n2 =>
          match fuel with
          | 0 => .error (.generic "unreachable fallback of the phase loop", [])
          | f + 1 => train_loop temp cr nodes nodenr src f n2 (passIdx + 1)
      else
        .ok (n, [])

/-- `Flow._train_node`: the branch cascade of the source.  With data for a
non-trainable node, warn and skip; with a `None` iterator for a node in
training, raise; with a `None` iterator for a non-trainable node, skip
silently.  In every remaining case control reaches the `try` block: a
`None` iterator for a trainable node that is not training is iterated
there and raises a `TypeError`, which the generic handler routes through
`_propagate_exception`; otherwise the training loop runs.  The result
pairs the updated node list with the warnings emitted. -/
def train_node (temp : String) (cr : CrashRec) (nodes : List Node)
    (it : Option DataSource) (nodenr : Nat) :
    Except (PyErr × Dumps) (List Node × List String) :=
  let node := nodes.getD nodenr dfltNode
  if it.isSome ∧ ¬ node.trainable then
    .ok (nodes, [warn_not_trainable nodenr])
  else if it.isNone ∧ node.training then
    .error (.flowException (noneTrainingMsg nodenr), [])
  else if it.isNone ∧ ¬ node.trainable then
    .ok (nodes, [])
  else
    match it with
    | none =>
      .error (propagate_exception temp cr nodes (.typeError noneIterMsg) nodenr)
    | some src =>
      match train_loop temp cr nodes nodenr src node.remaining node 0 with
      | .error e => .error e
      | .ok (n2, w) => .ok (nodes.set nodenr n2, w)

/-- `Flow._close_last_node`: call `stop_training` on the last node,
silently tolerating `TrainingFinishedException` and routing any other
failure through `_propagate_exception` with the last node's index.  On an
empty flow, `self.flow[-1]` raises an `IndexError` that escapes the second
handler's own indexing attempt. -/
def close_last_node (temp : String) (fl : MFlow) : Except (PyErr × Dumps) MFlow :=
  match fl.nodes.getLast? with
  | none => .error (.indexError "list index out of range", [])
  | some n =>
    match node_stop_training n with
    | .error .trainingFinished => .ok fl
    | .error e =>
      .error (propagate_exception temp fl.crashRec fl.nodes e (fl.nodes.length - 1))
    | .ok n2 => .ok { fl with nodes := fl.nodes.set (fl.nodes.length - 1) n2 }

/-- The entry used by the training loop for node `i` (`data_iterators[i]`);
a non-iterable entry never reaches this point after validation. -/
def entrySource : Entry → Option DataSource
  | .srcE s => some s
  | _ => none

/-- The `for i in range(len(self.flow))` training loop of `Flow.train`:
train node `i` on entry `i`, threading the node list and collecting
warnings. -/
def train_steps (temp : String) (cr : CrashRec) (entries : List Entry) :
    Nat → Nat → List Node → Except (PyErr × Dumps) (List Node × List String)
  | 0, _, nodes => .ok (nodes, [])
  | cnt + 1, i, nodes =>
    match train_node temp cr nodes (entrySource (entries.getD i .noneE)) i with
    | .error e => .error e
    | .ok (nodes2, w) =>
      match train_steps temp cr entries cnt (i + 1) nodes2 with
      | .error e => .error e
      | .ok (nodes3, w2) => .ok (nodes3, w ++ w2)

/-- `Flow.train(data_iterators)`: validate the iterators, train each node
successively, then close the last node's training phase. -/
def flow_train (temp : String) (fl : MFlow) (d : DataArg) :
    Except (PyErr × Dumps) (MFlow × List String) :=
  match train_check_iterators fl.nodes d with
  | .error e => .error (e, [])
  | .ok entries =>
    match train_steps temp fl.crashRec entries fl.nodes.length 0 fl.nodes with
    | .error e => .error e
    | .ok (nodes2, w) =>
      match close_last_node temp { fl with nodes := nodes2 } with
      | .error e => .error e
      | .ok fl2 => .ok (fl2, w)

/-- A checkpoint callback: takes the just-trained node, returns a
dictionary to merge into the flow's `__dict__`, or `None`. -/
def CpFun : Type := Node → Option (List (String × Int))

/-- The `checkpoints` argument of `CheckpointFlow.train`: a single
callback-or-`None` (broadcast to every node), or a list with one entry
per node. -/
inductive CpArg where
  | single (c : Option CpFun) : CpArg
  | list (l : List (Option CpFun)) : CpArg

/-- `CheckpointFlow._train_check_checkpoints`: a non-list argument is
broadcast to every node; a list must have exactly one entry per node, else
a `FlowException` is raised. -/
def train_check_checkpoints (nodes : List Node) (cps : CpArg) :
    Except PyErr (List (Option CpFun)) :=
  match cps with
  | .single c => .ok (List.replicate nodes.length c)
  | .list l =>
    if l.length ≠ nodes.length then
      .error (.flowException (toString l.length ++ " checkpoints specified, "
        ++ toString nodes.length ++ " needed"))
    else
      .ok l

/-- Dictionary lookup in the flow's attribute store; later entries
override earlier ones, as `self.__dict__.update` does. -/
def lookupAttr (l : List (String × Int)) (k : String) : Option Int :=
  (l.reverse.find? (fun p => p.1 = k)).map (fun p => p.2)

/-- Read an attribute merged into the flow by a checkpoint. -/
def flow_getattr (fl : MFlow) (k : String) : Option Int :=
  lookupAttr fl.attrs k

/-- The attribute entries one checkpoint step adds: if a checkpoint is
registered for index `i` (`i <= len(checkpoints)` and not `None`), it is
invoked with the just-trained node, and a truthy (nonempty) returned
dictionary is merged. -/
def cpStepDict (cps : List (Option CpFun)) (i : Nat) (node : Node) :
    List (String × Int) :=
  if i ≤ cps.length then
    match cps.getD i none with
    | some cb =>
      match cb node with
      | some d => if d ≠ [] then d else []
      | none => []
    | none => []
  else
    []

/-- The per-node loop of `CheckpointFlow.train`: train node `i`, then
invoke its checkpoint on the trained node and merge a returned dictionary
into the flow's attribute state. -/
def cp_steps (temp : String) (cr : CrashRec) (entries : List Entry)
    (cps : List (Option CpFun)) :
    Nat → Nat → List Node → List (String × Int) →
    Except (PyErr × Dumps) (List Node × List (String × Int) × List String)
  | 0, _, nodes, attrs => .ok (nodes, attrs, [])
  | cnt + 1, i, nodes, attrs =>
    match train_node temp cr nodes (entrySource (entries.getD i .noneE)) i with
    | .error e => .error e
    | .ok (nodes2, w) =>
      let attrs2 := attrs ++ cpStepDict cps i (nodes2.getD i dfltNode)
      match cp_steps temp cr entries cps cnt (i + 1) nodes2 attrs2 with
      | .error e => .error e
      | .ok (nodes3, attrs3, w2) => .ok (nodes3, attrs3, w ++ w2)

/-- The dictionaries the checkpoint loop merges, in order (ghost
description used to state what `cp_train` does to the attribute state). -/
def cp_dicts (temp : String) (cr : CrashRec) (entries : List Entry)
    (cps : List (Option CpFun)) :
    Nat → Nat → List Node → List (String × Int)
  | 0, _, _ => []
  | cnt + 1, i, nodes =>
    match train_node temp cr nodes (entrySource (entries.getD i .noneE)) i with
    | .error _ => []
    | .ok (nodes2, _) =>
      cpStepDict cps i (nodes2.getD i dfltNode)
        ++ cp_dicts temp cr entries cps cnt (i + 1) nodes2

/-- `CheckpointFlow.train(data_iterators, checkpoints)`: validate the
iterators and the checkpoints, run the checkpointed per-node loop, then
close the last node's training phase. -/
def cp_train (temp : String) (fl : MFlow) (d : DataArg) (cps : CpArg) :
    Except (PyErr × Dumps) (MFlow × List String) :=
  match train_check_iterators fl.nodes d with
  | .error e => .error (e, [])
  | .ok entries =>
    match train_check_checkpoints fl.nodes cps with
    | .error e => .error (e, [])
    | .ok cpl =>
      match cp_steps temp fl.crashRec entries cpl fl.nodes.length 0 fl.nodes fl.attrs with
      | .error e => .error e
      | .ok (nodes2, attrs2, w) =>
        match close_last_node temp { fl with nodes := nodes2, attrs := attrs2 } with
        | .error e => .error e
        | .ok fl2 => .ok (fl2, w)

/-- The adjacent pairs of a node sequence. -/
def adjacentPairs (l : List Node) : List (Node × Node) :=
  l.zip l.tail

/-- An adjacent pair violates the invariant when both the left node's
output dimension and the right node's input dimension are known and
unequal. -/
def pairViol (p : Node × Node) : Bool :=
  match p.1.output_dim, p.2.input_dim with
  | some a, some b => a ≠ b
  | _, _ => false

/-- The adjacency invariant is violated: some adjacent pair has both
dimensions known but unequal. -/
def Viol (l : List Node) : Prop :=
  ∃ p ∈ adjacentPairs l, pairViol p = true

instance (l : List Node) : Decidable (Viol l) :=
  List.decidableBEx _ (adjacentPairs l)

/-- All output dimensions in the list are unset or positive (the spec's
data model: a dimension is unknown or a fixed positive integer). -/
def DimsOK (l : List Node) : Prop :=
  ∀ n ∈ l, n.output_dim ≠ some 0

instance (l : List Node) : Decidable (DimsOK l) :=
  List.decidableBAll _ l

/-- `sub` occurs as a contiguous substring of `s`. -/
def StrInfix (sub s : String) : Prop :=
  sub.toList <:+: s.toList

/-- The parent exception carried by a crash-recovery wrapper. -/
def parentOf : PyErr → Option PyErr
  | .flowExceptionCR _ _ p => some p
  | _ => none

/-- The filename recorded on a crash-recovery wrapper. -/
def dumpFileOf : PyErr → Option String
  | .flowExceptionCR _ f _ => f
  | _ => none

/-- A dimension-consistent three-node chain (2 -> 2, 2 -> 3, 3 -> 3)
whose stride-2 slice pairs the first and third nodes, with output
dimension 2 against input dimension 3. -/
def exChainA : Node := { name := "A", output_dim := some 2 }

/-- Middle node of the example chain. -/
def exChainB : Node := { name := "B", input_dim := some 2, output_dim := some 3 }

/-- Last node of the example chain. -/
def exChainC : Node := { name := "C", input_dim := some 3 }

/-- The example three-node flow used for the strided-slice observation. -/
def exFlow3 : MFlow := { nodes := [exChainA, exChainB, exChainC] }

/-- A node with two training phases, used with a single-pass iterator
to probe the rewindability validation. -/
def exNode2ph : Node := { train_seq_len := 2, remaining := 2 }

/-- A single-pass, non-generator data source (a Python `listiterator`). -/
def exListIterSrc : DataSource := { kind := .listIterator, items := [.arr [1]] }

/-- A trainable node whose training already finished. -/
def exNodeDone : Node := { trainable := true, training := false }

/-! ### Consistency-check characterization -/

theorem check_dim_err (a b : Nat) (h : a ≠ b) :
    check_dimension_consistency (some a) (some b) =
      .error (.valueError (dimMismatchMsg (some a) (some b))) := by
  have hne : (some a : Option Nat) ≠ some b := by simpa using h
  by_cases h0 : a = 0
  · subst h0
    simp [check_dimension_consistency, pyAndDim, pyTruthyDim, hne]
  · simp [check_dimension_consistency, pyAndDim, pyTruthyDim, h0, hne]

theorem check_dim_ok_of_not_viol (prev n : Node) (hp : pairViol (prev, n) = false)
    (h0 : prev.output_dim ≠ some 0) :
    check_dimension_consistency prev.output_dim n.input_dim = .ok () := by
  rcases ho : prev.output_dim with _ | a
  · simp [check_dimension_consistency, pyAndDim, pyTruthyDim]
  · rcases hi : n.input_dim with _ | b
    · have ha : a ≠ 0 := by
        intro h
        exact h0 (by rw [ho, h])
      simp [check_dimension_consistency, pyAndDim, pyTruthyDim, ha]
    · have hab : a = b := by
        have := hp
        unfold pairViol at this
        rw [ho, hi] at this
        simpa using this
      simp [check_dimension_consistency, hab]

theorem pairViol_elim (p : Node × Node) (hp : pairViol p = true) :
    ∃ a b, p.1.output_dim = some a ∧ p.2.input_dim = some b ∧ a ≠ b := by
  unfold pairViol at hp
  rcases ho : p.1.output_dim with _ | a <;> rw [ho] at hp
  · simp at hp
  · rcases hi : p.2.input_dim with _ | b <;> rw [hi] at hp
    · simp at hp
    · exact ⟨a, b, rfl, rfl, by simpa using hp⟩

theorem check_pairs_spec : ∀ (rest : List Node) (prev : Node),
    DimsOK (prev :: rest) →
    (¬ Viol (prev :: rest) → check_pairs prev rest = .ok ()) ∧
    (Viol (prev :: rest) → ∃ p ∈ adjacentPairs (prev :: rest), pairViol p = true ∧
      check_pairs prev rest =
        .error (.valueError (dimMismatchMsg p.1.output_dim p.2.input_dim))) := by
  intro rest
  induction rest with
  | nil =>
    intro prev _
    constructor
    · intro _
      rfl
    · intro hv
      exact absurd hv (by simp [Viol, adjacentPairs])
  | cons n rest' ih =>
    intro prev hd
    have hd' : DimsOK (n :: rest') := by
      intro x hx
      exact hd x (List.mem_cons_of_mem _ hx)
    have hadj : adjacentPairs (prev :: n :: rest') = (prev, n) :: adjacentPairs (n :: rest') := by
      simp [adjacentPairs]
    have hViol : Viol (prev :: n :: rest') ↔
        (pairViol (prev, n) = true ∨ Viol (n :: rest')) := by
      unfold Viol
      rw [hadj]
      simp
    by_cases hp : pairViol (prev, n) = true
    · obtain ⟨a, b, ho, hi, hab⟩ := pairViol_elim _ hp
      have herr : check_pairs prev (n :: rest') =
          .error (.valueError (dimMismatchMsg prev.output_dim n.input_dim)) := by
        unfold check_pairs
        rw [ho, hi, check_dim_err a b hab]
      constructor
      · intro hnv
        exact absurd (hViol.mpr (Or.inl hp)) hnv
      · intro _
        exact ⟨(prev, n), by rw [hadj]; exact List.mem_cons_self _ _, hp, herr⟩
    · have hok : check_dimension_consistency prev.output_dim n.input_dim = .ok () :=
        check_dim_ok_of_not_viol prev n (by simpa using hp)
          (hd prev (List.mem_cons_self _ _))
      have hstep : check_pairs prev (n :: rest') = check_pairs n rest' := by
        show (match check_dimension_consistency prev.output_dim n.input_dim with
              | .error e => Except.error e
              | .ok _ => check_pairs n rest') = check_pairs n rest'
        rw [hok]
      obtain ⟨ih_ok, ih_err⟩ := ih n hd'
      constructor
      · intro hnv
        rw [hstep]
        exact ih_ok (fun hv => hnv (hViol.mpr (Or.inr hv)))
      · intro hv
        have hv' : Viol (n :: rest') := by
          rcases hViol.mp hv with h | h
          · exact absurd h hp
          · exact h
        obtain ⟨p, hmem, hpv, heq⟩ := ih_err hv'
        exact ⟨p, by rw [hadj]; exact List.mem_cons_of_mem _ hmem, hpv, by rw [hstep]; exact heq⟩

theorem check_nodes_spec (l : List Node) (hd : DimsOK l) :
    (¬ Viol l → check_nodes_consistency l = .ok ()) ∧
    (Viol l → ∃ p ∈ adjacentPairs l, pairViol p = true ∧
      check_nodes_consistency l =
        .error (.valueError (dimMismatchMsg p.1.output_dim p.2.input_dim))) := by
  cases l with
  | nil =>
    constructor
    · intro _
      rfl
    · intro hv
      exact absurd hv (by simp [Viol, adjacentPairs])
  | cons n rest => exact check_pairs_spec rest n hd

theorem commit_ok (fl : MFlow) (l2 : List Node) (hd : DimsOK l2) (hv : ¬ Viol l2) :
    commitIfConsistent fl l2 = ({ fl with nodes := l2 }, none) := by
  unfold commitIfConsistent
  rw [(check_nodes_spec l2 hd).1 hv]

theorem commit_err (fl : MFlow) (l2 : List Node) (hd : DimsOK l2) (hv : Viol l2) :
    ∃ p ∈ adjacentPairs l2, pairViol p = true ∧
      commitIfConsistent fl l2 =
        (fl, some (.valueError (dimMismatchMsg p.1.output_dim p.2.input_dim))) := by
  obtain ⟨p, hmem, hpv, heq⟩ := (check_nodes_spec l2 hd).2 hv
  exact ⟨p, hmem, hpv, by unfold commitIfConsistent; rw [heq]⟩

theorem setitem_slice_spec (fl : MFlow) (a b : Option Int) (vs : List Node)
    (hd : DimsOK (listSetSlice fl.nodes a b vs)) :
    (Viol (listSetSlice fl.nodes a b vs) →
      ∃ p ∈ adjacentPairs (listSetSlice fl.nodes a b vs), pairViol p = true ∧
        flow_setitem fl (.range_ a b vs) =
          (fl, some (.valueError (dimMismatchMsg p.1.output_dim p.2.input_dim)))) ∧
    (¬ Viol (listSetSlice fl.nodes a b vs) →
      flow_setitem fl (.range_ a b vs) =
        ({ fl with nodes := listSetSlice fl.nodes a b vs }, none)) := by
  have hdef : flow_setitem fl (.range_ a b vs) =
      commitIfConsistent fl (listSetSlice fl.nodes a b vs) := rfl
  constructor
  · intro hv
    obtain ⟨p, hmem, hpv, heq⟩ := commit_err fl _ hd hv
    exact ⟨p, hmem, hpv, by rw [hdef, heq]⟩
  · intro hnv
    rw [hdef, commit_ok fl _ hd hnv]

/-- C1: every mutating container operation (index and slice assignment,
deletion, insert, append, extend, pop, concatenation) builds the
prospective node sequence, and if that sequence has an adjacent pair with
both the left output dimension and the right input dimension known but
unequal, the operation raises the `ValueError` naming those two
dimensions and leaves the container's node sequence unchanged; if the
invariant holds, the mutation is committed.  (Dimensions are unset or
positive, per the spec's data model.) -/
theorem c1_container_mutations_atomic (fl : MFlow) :
    (∀ i v l2, listSetInt fl.nodes i v = .ok l2 → DimsOK l2 →
      (Viol l2 → ∃ p ∈ adjacentPairs l2, pairViol p = true ∧
        flow_setitem fl (.at_ i v) =
          (fl, some (.valueError (dimMismatchMsg p.1.output_dim p.2.input_dim)))) ∧
      (¬ Viol l2 → flow_setitem fl (.at_ i v) = ({ fl with nodes := l2 }, none)))
  ∧ (∀ a b vs, DimsOK (listSetSlice fl.nodes a b vs) →
      (Viol (listSetSlice fl.nodes a b vs) →
        ∃ p ∈ adjacentPairs (listSetSlice fl.nodes a b vs), pairViol p = true ∧
          flow_setitem fl (.range_ a b vs) =
            (fl, some (.valueError (dimMismatchMsg p.1.output_dim p.2.input_dim)))) ∧
      (¬ Viol (listSetSlice fl.nodes a b vs) →
        flow_setitem fl (.range_ a b vs) =
          ({ fl with nodes := listSetSlice fl.nodes a b vs }, none)))
  ∧ (∀ i l2, listDelInt fl.nodes i = .ok l2 → DimsOK l2 →
      (Viol l2 → ∃ p ∈ adjacentPairs l2, pairViol p = true ∧
        flow_delitem fl (.at_ i) =
          (fl, some (.valueError (dimMismatchMsg p.1.output_dim p.2.input_dim)))) ∧
      (¬ Viol l2 → flow_delitem fl (.at_ i) = ({ fl with nodes := l2 }, none)))
  ∧ (∀ a b, DimsOK (listDelSlice fl.nodes a b) →
      (Viol (listDelSlice fl.nodes a b) →
        ∃ p ∈ adjacentPairs (listDelSlice fl.nodes a b), pairViol p = true ∧
          flow_delitem fl (.range_ a b) =
            (fl, some (.valueError (dimMismatchMsg p.1.output_dim p.2.input_dim)))) ∧
      (¬ Viol (listDelSlice fl.nodes a b) →
        flow_delitem fl (.range_ a b) =
          ({ fl with nodes := listDelSlice fl.nodes a b }, none)))
  ∧ (∀ i v, DimsOK (listSetSlice fl.nodes (some i) (some i) [v]) →
      (Viol (listSetSlice fl.nodes (some i) (some i) [v]) →
        ∃ p ∈ adjacentPairs (listSetSlice fl.nodes (some i) (some i) [v]), pairViol p = true ∧
          flow_insert fl i v =
            (fl, some (.valueError (dimMismatchMsg p.1.output_dim p.2.input_dim)))) ∧
      (¬ Viol (listSetSlice fl.nodes (some i) (some i) [v]) →
        flow_insert fl i v =
          ({ fl with nodes := listSetSlice fl.nodes (some i) (some i) [v] }, none)))
  ∧ (∀ v, DimsOK (listSetSlice fl.nodes (some fl.nodes.length) (some fl.nodes.length) [v]) →
      (Viol (listSetSlice fl.nodes (some fl.nodes.length) (some fl.nodes.length) [v]) →
        ∃ p ∈ adjacentPairs (listSetSlice fl.nodes (some fl.nodes.length) (some fl.nodes.length) [v]),
          pairViol p = true ∧
          flow_append fl v =
            (fl, some (.valueError (dimMismatchMsg p.1.output_dim p.2.input_dim)))) ∧
      (¬ Viol (listSetSlice fl.nodes (some fl.nodes.length) (some fl.nodes.length) [v]) →
        flow_append fl v =
          ({ fl with nodes := listSetSlice fl.nodes (some fl.nodes.length) (some fl.nodes.length) [v] }, none)))
  ∧ (∀ g : MFlow, DimsOK (listSetSlice fl.nodes (some fl.nodes.length) (some fl.nodes.length) g.nodes) →
      (Viol (listSetSlice fl.nodes (some fl.nodes.length) (some fl.nodes.length) g.nodes) →
        ∃ p ∈ adjacentPairs (listSetSlice fl.nodes (some fl.nodes.length) (some fl.nodes.length) g.nodes),
          pairViol p = true ∧
          flow_extend fl (.flowv g) =
            (fl, some (.valueError (dimMismatchMsg p.1.output_dim p.2.input_dim)))) ∧
      (¬ Viol (listSetSlice fl.nodes (some fl.nodes.length) (some fl.nodes.length) g.nodes) →
        flow_extend fl (.flowv g) =
          ({ fl with nodes := listSetSlice fl.nodes (some fl.nodes.length) (some fl.nodes.length) g.nodes }, none)))
  ∧ (∀ i x l2, listGetInt fl.nodes i = .ok x → listDelInt fl.nodes i = .ok l2 → DimsOK l2 →
      (Viol l2 → ∃ p ∈ adjacentPairs l2, pairViol p = true ∧
        flow_pop fl i =
          (fl, .error (.valueError (dimMismatchMsg p.1.output_dim p.2.input_dim)))) ∧
      (¬ Viol l2 → flow_pop fl i = ({ fl with nodes := l2 }, .ok x)))
  ∧ (∀ g : MFlow, DimsOK (fl.nodes ++ g.nodes) →
      (Viol (fl.nodes ++ g.nodes) →
        ∃ p ∈ adjacentPairs (fl.nodes ++ g.nodes), pairViol p = true ∧
          flow_add fl (.flowv g) =
            .error (.valueError (dimMismatchMsg p.1.output_dim p.2.input_dim))) ∧
      (¬ Viol (fl.nodes ++ g.nodes) →
        flow_add fl (.flowv g) =
          .ok { cls := fl.cls, nodes := fl.nodes ++ g.nodes, crashRec := .off, attrs := [] })) := by
  refine ⟨?_, ?_, ?_, ?_, ?_, ?_, ?_, ?_, ?_⟩
  · intro i v l2 hset hd
    have hdef : flow_setitem fl (.at_ i v) = commitIfConsistent fl l2 := by
      show (match listSetInt fl.nodes i v with
            | .error e => (fl, some e)
            | .ok l => commitIfConsistent fl l) = commitIfConsistent fl l2
      rw [hset]
    constructor
    · intro hv
      obtain ⟨p, hmem, hpv, heq⟩ := commit_err fl _ hd hv
      exact ⟨p, hmem, hpv, by rw [hdef, heq]⟩
    · intro hnv
      rw [hdef, commit_ok fl _ hd hnv]
  · intro a b vs hd
    exact setitem_slice_spec fl a b vs hd
  · intro i l2 hdel hd
    have hdef : flow_delitem fl (.at_ i) = commitIfConsistent fl l2 := by
      show (match listDelInt fl.nodes i with
            | .error e => (fl, some e)
            | .ok l => commitIfConsistent fl l) = commitIfConsistent fl l2
      rw [hdel]
    constructor
    · intro hv
      obtain ⟨p, hmem, hpv, heq⟩ := commit_err fl _ hd hv
      exact ⟨p, hmem, hpv, by rw [hdef, heq]⟩
    · intro hnv
      rw [hdef, commit_ok fl _ hd hnv]
  · intro a b hd
    have hdef : flow_delitem fl (.range_ a b) =
        commitIfConsistent fl (listDelSlice fl.nodes a b) := rfl
    constructor
    · intro hv
      obtain ⟨p, hmem, hpv, heq⟩ := commit_err fl _ hd hv
      exact ⟨p, hmem, hpv, by rw [hdef, heq]⟩
    · intro hnv
      rw [hdef, commit_ok fl _ hd hnv]
  · intro i v hd
    exact setitem_slice_spec fl (some i) (some i) [v] hd
  · intro v hd
    exact setitem_slice_spec fl (some fl.nodes.length) (some fl.nodes.length) [v] hd
  · intro g hd
    exact setitem_slice_spec fl (some fl.nodes.length) (some fl.nodes.length) g.nodes hd
  · intro i x l2 hget hdel hd
    have hdefd : flow_delitem fl (.at_ i) = commitIfConsistent fl l2 := by
      simp only [flow_delitem, hdel]
    constructor
    · intro hv
      obtain ⟨p, hmem, hpv, heq⟩ := commit_err fl _ hd hv
      refine ⟨p, hmem, hpv, ?_⟩
      simp only [flow_pop, hget, hdefd, heq]
    · intro hnv
      simp only [flow_pop, hget, hdefd, commit_ok fl _ hd hnv]
  · intro g hd
    constructor
    · intro hv
      obtain ⟨p, hmem, hpv, heq⟩ := (check_nodes_spec _ hd).2 hv
      refine ⟨p, hmem, hpv, ?_⟩
      simp only [flow_add, heq]
    · intro hnv
      simp only [flow_add, (check_nodes_spec _ hd).1 hnv]

theorem c1_witness :
    flow_setitem { nodes := [exChainA, exChainB] }
        (.at_ 1 { name := "B2", input_dim := some 2 }) =
      ({ nodes := [exChainA, { name := "B2", input_dim := some 2 }] }, none) :=
  ((c1_container_mutations_atomic { nodes := [exChainA, exChainB] }).1 1
      { name := "B2", input_dim := some 2 }
      [exChainA, { name := "B2", input_dim := some 2 }]
      (by decide) (by decide)).2 (by decide)

/-- C10: slice indexing selects the subsequence, re-validates it, and on
success returns a fresh container of the same class holding it; the
validation can fail on a strided slice of a perfectly consistent flow
(witnessed by the 2 -> 2 -> 3 -> 3 chain whose stride-2 slice joins
output dimension 2 to input dimension 3); integer indexing returns the
node at the index with no validation at all, on any flow. -/
theorem c10_getitem_slice_validates (fl : MFlow) :
    (∀ a b st sl, listGetSliceStep fl.nodes a b st = .ok sl →
      (check_nodes_consistency sl = .ok () →
        flow_getitem fl (.range_ a b st) =
          .ok (.sub { cls := fl.cls, nodes := sl, crashRec := .off, attrs := [] })) ∧
      (∀ e, check_nodes_consistency sl = .error e →
        flow_getitem fl (.range_ a b st) = .error e))
  ∧ (check_nodes_consistency exFlow3.nodes = .ok () ∧
      flow_getitem exFlow3 (.range_ none none (some 2)) =
        .error (.valueError (dimMismatchMsg (some 2) (some 3))))
  ∧ (∀ i x, listGetInt fl.nodes i = .ok x →
      flow_getitem fl (.at_ i) = .ok (.node x)) := by
  refine ⟨?_, ⟨by decide, by decide⟩, ?_⟩
  · intro a b st sl hsl
    constructor
    · intro hok
      simp only [flow_getitem, hsl, hok, flow_init]
    · intro e herr
      simp only [flow_getitem, hsl, herr]
  · intro i x hget
    simp only [flow_getitem, hget]

theorem c10_witness :
    flow_getitem exFlow3 (.range_ (some 0) (some 2) none) =
      .ok (.sub { cls := .flow, nodes := [exChainA, exChainB],
                  crashRec := .off, attrs := [] }) ∧
    flow_getitem exFlow3 (.at_ 2) = .ok (.node exChainC) :=
  ⟨((c10_getitem_slice_validates exFlow3).1 (some 0) (some 2) none
      [exChainA, exChainB] (by decide)).1 (by decide),
   (c10_getitem_slice_validates exFlow3).2.2 2 exChainC (by decide)⟩

/-- C9: `extend` and concatenation require a `Flow` instance on the
right; any other operand raises the `TypeError` naming the operand's
type, with the left container unchanged (`extend`) or no result produced
(`__add__`); a `Flow` operand never raises a `TypeError` — only the
dimension check can subsequently fail. -/
theorem c9_concat_type_check (fl : MFlow) :
    (∀ t, flow_extend fl (.nonflow t) = (fl, some (.typeError (concatTypeMsg t))))
  ∧ (∀ t, flow_add fl (.nonflow t) = .error (.typeError (concatTypeMsg t)))
  ∧ (∀ g : MFlow, (flow_extend fl (.flowv g)).2 = none ∨
      ∃ m, (flow_extend fl (.flowv g)).2 = some (.valueError m))
  ∧ (∀ g : MFlow, (∃ fl2, flow_add fl (.flowv g) = .ok fl2) ∨
      ∃ m, flow_add fl (.flowv g) = .error (.valueError m)) := by
  have hcp : ∀ (rest : List Node) (n : Node), check_pairs n rest = .ok () ∨
      ∃ m, check_pairs n rest = .error (.valueError m) := by
    intro rest
    induction rest with
    | nil =>
      intro n
      exact Or.inl rfl
    | cons n2 rest' ih =>
      intro n
      rcases hc : check_dimension_consistency n.output_dim n2.input_dim with e | u
      · have herr : check_pairs n (n2 :: rest') = .error e := by
          unfold check_pairs
          rw [hc]
        have hval : ∃ m, e = .valueError m := by
          unfold check_dimension_consistency at hc
          split at hc
          · exact ⟨_, by cases hc; rfl⟩
          · cases hc
        obtain ⟨m, hm⟩ := hval
        refine Or.inr ⟨m, ?_⟩
        rw [herr, hm]
      · have hstep : check_pairs n (n2 :: rest') = check_pairs n2 rest' := by
          show (match check_dimension_consistency n.output_dim n2.input_dim with
                | .error e => Except.error e
                | .ok _ => check_pairs n2 rest') = check_pairs n2 rest'
          rw [hc]
        rw [hstep]
        exact ih n2
  have hcn : ∀ l : List Node, check_nodes_consistency l = .ok () ∨
      ∃ m, check_nodes_consistency l = .error (.valueError m) := by
    intro l
    cases l with
    | nil => exact Or.inl rfl
    | cons n rest => exact hcp rest n
  refine ⟨fun t => rfl, fun t => rfl, ?_, ?_⟩
  · intro g
    rcases hcn (listSetSlice fl.nodes (some fl.nodes.length) (some fl.nodes.length) g.nodes)
      with hok | ⟨m, herr⟩
    · left
      show (flow_setitem fl (.range_ (some fl.nodes.length) (some fl.nodes.length) g.nodes)).2 = none
      simp only [flow_setitem, commitIfConsistent, hok]
    · right
      refine ⟨m, ?_⟩
      show (flow_setitem fl (.range_ (some fl.nodes.length) (some fl.nodes.length) g.nodes)).2 = _
      simp only [flow_setitem, commitIfConsistent, herr]
  · intro g
    rcases hcn (fl.nodes ++ g.nodes) with hok | ⟨m, herr⟩
    · left
      exact ⟨{ cls := fl.cls, nodes := fl.nodes ++ g.nodes, crashRec := .off, attrs := [] },
        by simp only [flow_add, hok]⟩
    · right
      exact ⟨m, by simp only [flow_add, herr]⟩

/-! ### Crash-recovery wrapping -/

theorem strInfix_parts (a sub b : String) : StrInfix sub (a ++ sub ++ b) := by
  refine ⟨a.toList, b.toList, ?_⟩
  simp [String.toList, String.data_append]

theorem strInfix_append_right (sub s t : String) (h : StrInfix sub s) :
    StrInfix sub (s ++ t) := by
  have h2 : s.toList <:+: (s ++ t).toList := by
    rw [show (s ++ t).toList = s.toList ++ t.toList by
      simp [String.toList, String.data_append]]
    exact (List.prefix_append _ _).isInfix
  exact h.trans h2

theorem diag_contains_index (i : Nat) (tn : String) (e : PyErr) :
    StrInfix (toString i) (diagMsg i tn e) := by
  have hd : diagMsg i tn e =
      ("\n" ++ fortyDashes ++ "\n! Exception in node #") ++ toString i ++
        (" (" ++ tn ++ "):\n" ++ "Node Traceback:\n" ++ format_exception e ++ fortyDashes) := by
    simp [diagMsg, nodeDiagLine, String.append_assoc]
  rw [hd]
  exact strInfix_parts _ _ _

theorem diag_contains_name (i : Nat) (tn : String) (e : PyErr) :
    StrInfix tn (diagMsg i tn e) := by
  have hd : diagMsg i tn e =
      ("\n" ++ fortyDashes ++ "\n! Exception in node #" ++ toString i ++ " (") ++ tn ++
        ("):\n" ++ "Node Traceback:\n" ++ format_exception e ++ fortyDashes) := by
    simp [diagMsg, nodeDiagLine, String.append_assoc]
  rw [hd]
  exact strInfix_parts _ _ _

/-- C5: interception of a unit failure at index `i` produces a
`FlowExceptionCR` whose message contains the index and the unit's type
name and whose parent is the original failure; when crash recovery is
armed, the crash dump of the node sequence is written to the caller-chosen
filename (string setting) or to the tempfile-chosen name, and the error
records that location; and unit failures in execution, inverse execution
and training are all routed through this interception. -/
theorem c5_exception_wrapping (temp : String) (nodes : List Node) (e : PyErr)
    (i : Nat) (hi : i < nodes.length) :
    (StrInfix (toString i) (diagMsg i (nodes.getD i dfltNode).name e) ∧
     StrInfix (nodes.getD i dfltNode).name (diagMsg i (nodes.getD i dfltNode).name e))
  ∧ propagate_exception temp .off nodes e i =
      (.flowExceptionCR (diagMsg i (nodes.getD i dfltNode).name e) none e, [])
  ∧ propagate_exception temp .on_ nodes e i =
      (.flowExceptionCR (diagMsg i (nodes.getD i dfltNode).name e ++ dumpInfoLine temp)
        (some temp) e, [(temp, nodes)])
  ∧ (∀ s, s ≠ "" → propagate_exception temp (.file s) nodes e i =
      (.flowExceptionCR (diagMsg i (nodes.getD i dfltNode).name e ++ dumpInfoLine s)
        (some s) e, [(s, nodes)]))
  ∧ (∀ cr, parentOf (propagate_exception temp cr nodes e i).1 = some e)
  ∧ (∀ cr, StrInfix (toString i) (errText (propagate_exception temp cr nodes e i).1) ∧
      StrInfix (nodes.getD i dfltNode).name (errText (propagate_exception temp cr nodes e i).1))
  ∧ (∀ m cnt x, node_execute (nodes.getD i dfltNode) x = .error m →
      ∀ cr, execLoop temp cr nodes i (cnt + 1) x =
        .error (propagate_exception temp cr nodes (.generic m) i))
  ∧ (∀ m x, node_inverse (nodes.getD i dfltNode) x = .error m →
      ∀ cr, invLoop temp cr nodes (i + 1) x =
        .error (propagate_exception temp cr nodes (.generic m) i))
  ∧ (∀ node x2 m item rest, ∀ cr,
      filterPrev temp cr nodes i (item_sample item) = .ok x2 →
      node_train node x2 (item_args item) = .error (.generic m) →
      train_pass temp cr nodes i node (item :: rest) =
        .err (propagate_exception temp cr nodes (.generic m) i)) := by
  refine ⟨⟨diag_contains_index _ _ _, diag_contains_name _ _ _⟩, rfl, ?_, ?_, ?_, ?_, ?_, ?_, ?_⟩
  · simp [propagate_exception, flowExceptionCR_init, CrashRec.truthy]
  · intro s hs
    simp [propagate_exception, flowExceptionCR_init, CrashRec.truthy, hs]
  · intro cr
    cases cr with
    | off => rfl
    | on_ => rfl
    | file s =>
      by_cases hs : s = "" <;>
        simp [propagate_exception, flowExceptionCR_init, CrashRec.truthy, hs, parentOf]
  · intro cr
    cases cr with
    | off =>
      exact ⟨diag_contains_index _ _ _, diag_contains_name _ _ _⟩
    | on_ =>
      constructor
      · exact strInfix_append_right _ _ _ (diag_contains_index _ _ _)
      · exact strInfix_append_right _ _ _ (diag_contains_name _ _ _)
    | file s =>
      by_cases hs : s = ""
      · have hpe : propagate_exception temp (.file s) nodes e i =
            (.flowExceptionCR (diagMsg i (nodes.getD i dfltNode).name e) none e, []) := by
          simp [propagate_exception, flowExceptionCR_init, CrashRec.truthy, hs]
        rw [hpe]
        exact ⟨diag_contains_index _ _ _, diag_contains_name _ _ _⟩
      · have hpe : propagate_exception temp (.file s) nodes e i =
            (.flowExceptionCR (diagMsg i (nodes.getD i dfltNode).name e ++ dumpInfoLine s)
              (some s) e, [(s, nodes)]) := by
          simp [propagate_exception, flowExceptionCR_init, CrashRec.truthy, hs]
        rw [hpe]
        exact ⟨strInfix_append_right _ _ _ (diag_contains_index _ _ _),
               strInfix_append_right _ _ _ (diag_contains_name _ _ _)⟩
  · intro m cnt x hx cr
    simp only [execLoop, hi, if_true, hx]
  · intro m x hx cr
    simp only [invLoop, hx]
  · intro node x2 m item rest cr hfil htr
    simp only [train_pass, hfil, htr]

theorem c5_witness :
    propagate_exception "dumpfile" .on_ [exChainA] (.generic "boom") 0 =
      (.flowExceptionCR (diagMsg 0 "A" (.generic "boom") ++ dumpInfoLine "dumpfile")
        (some "dumpfile") (.generic "boom"), [("dumpfile", [exChainA])]) :=
  (c5_exception_wrapping "dumpfile" [exChainA] (.generic "boom") 0 (by decide)).2.2.1

/-! ### Execution engine -/

theorem execLoop_chain (temp : String) (cr : CrashRec) (nodes : List Node) :
    ∀ (c i : Nat) (x y : List Int), i + c ≤ nodes.length →
      chainApply ((nodes.drop i).take c) x = .ok y →
      execLoop temp cr nodes i c x = .ok y := by
  intro c
  induction c with
  | zero =>
    intro i x y _ hch
    simp only [List.take_zero, chainApply] at hch
    cases hch
    rfl
  | succ c ih =>
    intro i x y hle hch
    have hi : i < nodes.length := by omega
    have hdt : (nodes.drop i).take (c + 1) =
        nodes.getD i dfltNode :: ((nodes.drop (i + 1)).take c) := by
      rw [List.drop_eq_getElem_cons hi, List.getD_eq_getElem nodes dfltNode hi]
      rfl
    rw [hdt] at hch
    rcases hx : node_execute (nodes.getD i dfltNode) x with m | y1
    · simp only [chainApply, hx] at hch
      cases hch
    · simp only [chainApply, hx] at hch
      have hrec := ih (i + 1) y1 y (by omega) hch
      simp only [execLoop, hi, if_true, hx]
      exact hrec

/-- C6: executing a single bulk array applies each unit's transform
sequentially from index 0 through the given index inclusive (the last
unit when unspecified) and returns the result; executing a sequence of
batch arrays applies the same sequential transform to every batch and
returns the concatenation of the per-batch outputs in input order. -/
theorem c6_execute_single_and_batches (temp : String) (fl : MFlow) :
    (∀ x y k, k + 1 ≤ fl.nodes.length →
      chainApply (fl.nodes.take (k + 1)) x = .ok y →
      flow_execute temp fl (.arr x) (some k) = .ok y)
  ∧ (∀ x y, chainApply fl.nodes x = .ok y →
      flow_execute temp fl (.arr x) none = .ok y)
  ∧ (∀ (xs : List (List Int)) (f : List Int → List Int) (nodenr : Option Nat),
      xs ≠ [] →
      (∀ b ∈ xs, execute_seq temp fl.crashRec fl.nodes b nodenr = .ok (f b)) →
      flow_execute temp fl (.seq xs) nodenr = .ok ((xs.map f).flatten)) := by
  refine ⟨?_, ?_, ?_⟩
  · intro x y k hk hch
    show execute_seq temp fl.crashRec fl.nodes x (some k) = .ok y
    show execLoop temp fl.crashRec fl.nodes 0 (k + 1) x = .ok y
    refine execLoop_chain temp fl.crashRec fl.nodes (k + 1) 0 x y (by omega) ?_
    simpa using hch
  · intro x y hch
    show execute_seq temp fl.crashRec fl.nodes x none = .ok y
    show execLoop temp fl.crashRec fl.nodes 0 fl.nodes.length x = .ok y
    refine execLoop_chain temp fl.crashRec fl.nodes fl.nodes.length 0 x y (by omega) ?_
    simpa [List.take_length] using hch
  · intro xs f nodenr _ hall
    have hb : ∀ xs2, (∀ b ∈ xs2, execute_seq temp fl.crashRec fl.nodes b nodenr = .ok (f b)) →
        execBatches temp fl.crashRec fl.nodes nodenr xs2 = .ok (xs2.map f) := by
      intro xs2
      induction xs2 with
      | nil =>
        intro _
        rfl
      | cons b rest ih =>
        intro hall2
        have hbb := hall2 b (List.mem_cons_self _ _)
        have hrest := ih (fun b2 hb2 => hall2 b2 (List.mem_cons_of_mem _ hb2))
        simp only [execBatches, hbb, hrest, List.map]
    show (match execBatches temp fl.crashRec fl.nodes nodenr xs with
          | .error e => Except.error e
          | .ok ys => Except.ok ys.flatten) = .ok ((xs.map f).flatten)
    rw [hb xs hall]

theorem c6_witness :
    flow_execute "t" { nodes := [{ execB := .mapAdd 1 }, { execB := .mapAdd 10 }] }
        (.arr [0, 1]) none = .ok [11, 12] ∧
    flow_execute "t" { nodes := [{ execB := .mapAdd 1 }, { execB := .mapAdd 10 }] }
        (.seq [[0], [5]]) none = .ok [11, 16] :=
  by
  constructor
  · exact (c6_execute_single_and_batches "t"
      { nodes := [{ execB := .mapAdd 1 }, { execB := .mapAdd 10 }] }).2.1
      [0, 1] [11, 12] (by decide)
  · have h := (c6_execute_single_and_batches "t"
      { nodes := [{ execB := .mapAdd 1 }, { execB := .mapAdd 10 }] }).2.2
      [[0], [5]] (fun b => (b.map (fun v => v + 1)).map (fun v => v + 10)) none
      (by decide) (by decide)
    simpa using h

/-! ### Training orchestrator -/

theorem train_pass_ok (temp : String) (cr : CrashRec) (nodes : List Node)
    (nodenr : Nat) (f : Item → List Int) :
    ∀ (items : List Item) (node : Node), node.training = true → node.trainFail = none →
      (∀ it ∈ items, filterPrev temp cr nodes nodenr (item_sample it) = .ok (f it)) →
      train_pass temp cr nodes nodenr node items =
        .ok { node with trainLog := node.trainLog ++
                items.map (fun it => (f it, item_args it)) } := by
  intro items
  induction items with
  | nil =>
    intro node _ _ _
    simp only [train_pass, List.map_nil, List.append_nil]
  | cons it rest ih =>
    intro node htr hfail hfil
    have hf1 := hfil it (List.mem_cons_self _ _)
    have htrain : node_train node (f it) (item_args it) =
        .ok { node with trainLog := node.trainLog ++ [(f it, item_args it)] } := by
      simp [node_train, hfail, htr]
    have hrest := ih { node with trainLog := node.trainLog ++ [(f it, item_args it)] }
      htr hfail (fun it2 h2 => hfil it2 (List.mem_cons_of_mem _ h2))
    simp only [train_pass, hf1, htrain, hrest, List.map_cons]
    simp [List.append_assoc]

theorem train_loop_ok (temp : String) (cr : CrashRec) (nodes : List Node)
    (nodenr : Nat) (src : DataSource) (f : Item → List Int)
    (hre : src.kind.restartable = true)
    (hfil : ∀ it ∈ src.items, filterPrev temp cr nodes nodenr (item_sample it) = .ok (f it)) :
    ∀ (r : Nat) (node : Node) (passIdx : Nat), node.remaining = r →
      node.training = true → node.trainFail = none → node.stopFail = none →
      train_loop temp cr nodes nodenr src r node passIdx =
        .ok ({ node with
               trainLog := node.trainLog ++
                 (List.replicate (max r 1)
                   (src.items.map (fun it => (f it, item_args it)))).flatten,
               remaining := min r 1,
               training := true,
               stopCount := node.stopCount + (r - 1) }, []) := by
  intro r
  induction r with
  | zero =>
    intro node passIdx hr htr hf hs
    have hpi : passItems src passIdx = src.items := by
      simp [passItems, hre]
    have hpass := train_pass_ok temp cr nodes nodenr f src.items node htr hf hfil
    rw [train_loop, hpi]
    split
    · rename_i e heq
      rw [hpass] at heq
      cases heq
    · rename_i n heq
      rw [hpass] at heq
      cases heq
    · rename_i n heq
      rw [hpass] at heq
      cases heq
      rw [if_neg (by simp [hr])]
      simp only [Except.ok.injEq, Prod.mk.injEq]
      refine ⟨?_, trivial⟩
      ext <;> simp [hr, htr]
  | succ r' ih =>
    intro node passIdx hr htr hf hs
    have hpi : passItems src passIdx = src.items := by
      simp [passItems, hre]
    have hpass := train_pass_ok temp cr nodes nodenr f src.items node htr hf hfil
    rw [train_loop, hpi]
    split
    · rename_i e heq
      rw [hpass] at heq
      cases heq
    · rename_i n heq
      rw [hpass] at heq
      cases heq
    · rename_i n heq
      rw [hpass] at heq
      cases heq
      by_cases hr1 : r' = 0
      · subst hr1
        rw [if_neg (by simp [hr])]
        simp only [Except.ok.injEq, Prod.mk.injEq]
        refine ⟨?_, trivial⟩
        ext <;> simp [hr, htr]
      · rw [if_pos (by simp [hr]; omega)]
        have hstop : node_stop_training
            { node with trainLog := node.trainLog ++
                src.items.map (fun it => (f it, item_args it)) } =
            .ok { node with
                  trainLog := node.trainLog ++ src.items.map (fun it => (f it, item_args it)),
                  remaining := r',
                  training := true,
                  stopCount := node.stopCount + 1 } := by
          simp only [node_stop_training, hs, htr, if_true]
          simp [hr, hr1]
        have hrec := ih { node with
            trainLog := node.trainLog ++ src.items.map (fun it => (f it, item_args it)),
            remaining := r',
            training := true,
            stopCount := node.stopCount + 1 } (passIdx + 1) rfl rfl hf hs
        rw [hstop]
        show train_loop temp cr nodes nodenr src r'
            { node with
              trainLog := node.trainLog ++ src.items.map (fun it => (f it, item_args it)),
              remaining := r',
              training := true,
              stopCount := node.stopCount + 1 } (passIdx + 1) = _
        rw [hrec]
        have hm1 : max r' 1 = r' := by omega
        have hm2 : max (r' + 1) 1 = r' + 1 := by omega
        have hmin1 : min r' 1 = 1 := by omega
        have hmin2 : min (r' + 1) 1 = 1 := by omega
        have hsc : node.stopCount + 1 + (r' - 1) = node.stopCount + (r' + 1 - 1) := by omega
        simp only [Except.ok.injEq, Prod.mk.injEq]
        refine ⟨?_, trivial⟩
        ext <;> simp [hm1, hm2, hmin1, hmin2, hsc, List.replicate_succ, List.append_assoc]

/-- C2: training one node with a present restartable source repeatedly
iterates the source to completion: each item's first element is the
sample, its remaining elements become extra arguments forwarded only to
this node's training call, the sample is first filtered through nodes
`0..i-1` by the execution engine, and after each full pass the current
phase is closed with an explicit `stop_training` and iteration restarts
exactly when more than one training phase remains — so an initial
remaining-phase count `r` produces `max r 1` full passes over the items
and `r - 1` phase closes, with no warnings and no other node touched. -/
theorem c2_train_node_iteration (temp : String) (cr : CrashRec) (nodes : List Node)
    (nodenr : Nat) (src : DataSource) (f : Item → List Int) (node : Node)
    (hnode : nodes.getD nodenr dfltNode = node)
    (htr : node.trainable = true) (hti : node.training = true)
    (hf : node.trainFail = none) (hs : node.stopFail = none)
    (hre : src.kind.restartable = true)
    (hfil : ∀ it ∈ src.items, filterPrev temp cr nodes nodenr (item_sample it) = .ok (f it)) :
    train_node temp cr nodes (some src) nodenr =
      .ok (nodes.set nodenr
        { node with
          trainLog := node.trainLog ++
            (List.replicate (max node.remaining 1)
              (src.items.map (fun it => (f it, item_args it)))).flatten,
          remaining := min node.remaining 1,
          training := true,
          stopCount := node.stopCount + (node.remaining - 1) }, []) := by
  have hloop := train_loop_ok temp cr nodes nodenr src f hre hfil node.remaining node 0
    rfl hti hf hs
  have hnode' : nodes[nodenr]?.getD dfltNode = node := by
    rw [← List.getD_eq_getElem?_getD]
    exact hnode
  have h1 : train_node temp cr nodes (some src) nodenr =
      (match train_loop temp cr nodes nodenr src node.remaining node 0 with
       | .error e => .error e
       | .ok (n2, w) => .ok (nodes.set nodenr n2, w)) := by
    simp [train_node, hnode, hnode', htr]
  rw [h1, hloop]

theorem c2_witness :
    train_node "t" .off
      [{ name := "P", execB := .mapAdd 1 }, { name := "T", remaining := 2 }]
      (some { kind := .pyList, items := [.arr [0], .tup [1] [[9]]] }) 1 =
      .ok ([{ name := "P", execB := .mapAdd 1 },
            { name := "T", remaining := 1, stopCount := 1,
              trainLog := [([1], []), ([2], [[9]]), ([1], []), ([2], [[9]])] }], []) := by
  have h := c2_train_node_iteration "t" .off
    [{ name := "P", execB := .mapAdd 1 }, { name := "T", remaining := 2 }]
    1 { kind := .pyList, items := [.arr [0], .tup [1] [[9]]] }
    (fun it => (item_sample it).map (fun v => v + 1))
    { name := "T", remaining := 2 }
    (by decide) (by decide) (by decide) (by decide) (by decide) (by decide) (by decide)
  simpa using h

/-- C4 (counterexample to the claim as stated): for a trainable node that
is not currently training, a `None` data source is not skipped silently —
control reaches the `try` block, iterating `None` raises a `TypeError`,
and the generic handler wraps it into a `FlowExceptionCR`. -/
theorem c4_counterexample :
    exNodeDone.trainable = true ∧ exNodeDone.training = false ∧
    train_node "t" .off [exNodeDone] none 0 =
      .error (.flowExceptionCR (diagMsg 0 "Node" (.typeError noneIterMsg)) none
        (.typeError noneIterMsg), []) :=
  ⟨rfl, rfl, rfl⟩

/-- C4 (amended): with a `None` data source, a node currently training
raises the missing-source `FlowException`; a non-trainable node not in
training is skipped silently; a trainable node not in training raises a
crash-recovery-wrapped `TypeError` from iterating the absent source. -/
theorem c4_amended_none_source (temp : String) (cr : CrashRec) (nodes : List Node)
    (nodenr : Nat) (node : Node) (hnode : nodes.getD nodenr dfltNode = node) :
    (node.training = true →
      train_node temp cr nodes none nodenr =
        .error (.flowException (noneTrainingMsg nodenr), []))
  ∧ (node.training = false → node.trainable = false →
      train_node temp cr nodes none nodenr = .ok (nodes, []))
  ∧ (node.training = false → node.trainable = true →
      train_node temp cr nodes none nodenr =
        .error (propagate_exception temp cr nodes (.typeError noneIterMsg) nodenr)) := by
  have hnode' : nodes[nodenr]?.getD dfltNode = node := by
    rw [← List.getD_eq_getElem?_getD]
    exact hnode
  refine ⟨?_, ?_, ?_⟩
  · intro h
    simp [train_node, hnode, hnode', h]
  · intro h1 h2
    simp [train_node, hnode, hnode', h1, h2]
  · intro h1 h2
    simp [train_node, hnode, hnode', h1, h2]

theorem c4_witness :
    train_node "t" .off [{ trainable := false, training := false }] none 0 =
      .ok ([{ trainable := false, training := false }], []) ∧
    train_node "t" .off [{ training := true }] none 0 =
      .error (.flowException (noneTrainingMsg 0), []) :=
  ⟨(c4_amended_none_source "t" .off [{ trainable := false, training := false }] 0
      { trainable := false, training := false } (by decide)).2.1 (by decide) (by decide),
   (c4_amended_none_source "t" .off [{ training := true }] 0
      { training := true } (by decide)).1 (by decide)⟩

theorem check_generators_spec : ∀ (ps : List (Node × Entry)) (i0 : Nat),
    (∃ p ∈ ps, p.1.train_seq_len > 1 ∧ entryIsGenerator p.2 = true) ↔
      ∃ m, check_generators i0 ps = .error (.flowException m) := by
  intro ps
  induction ps with
  | nil =>
    intro i0
    constructor
    · rintro ⟨p, hp, _⟩
      cases hp
    · rintro ⟨m, hm⟩
      cases hm
  | cons pe rest ih =>
    intro i0
    rcases pe with ⟨n, e⟩
    by_cases hc : n.train_seq_len > 1 ∧ entryIsGenerator e = true
    · constructor
      · intro _
        have herr : check_generators i0 ((n, e) :: rest) =
            .error (.flowException ("Node number " ++ toString i0
              ++ " has multiple training phases but the corresponding iterator is a"
              ++ " generator. This is not allowed since generators cannot be"
              ++ " rewinded for further training.")) := by
          simp [check_generators, hc]
        exact ⟨_, herr⟩
      · intro _
        exact ⟨(n, e), List.mem_cons_self _ _, hc⟩
    · have hstep : check_generators i0 ((n, e) :: rest) = check_generators (i0 + 1) rest := by
        simp [check_generators, hc]
      constructor
      · rintro ⟨p, hp, hpv⟩
        rcases List.mem_cons.mp hp with rfl | hp2
        · exact absurd hpv hc
        · rw [hstep]
          exact (ih (i0 + 1)).mp ⟨p, hp2, hpv⟩
      · rintro ⟨m, hm⟩
        rw [hstep] at hm
        obtain ⟨p, hp2, hpv⟩ := (ih (i0 + 1)).mpr ⟨m, hm⟩
        exact ⟨p, List.mem_cons_of_mem _ hp2, hpv⟩

/-- C3 (counterexample to the claim as stated): a node with two training
phases paired with a single-pass source that is not a generator (a plain
list iterator) passes validation — the check rejects only generator-typed
sources, not every non-restartable source. -/
theorem c3_counterexample :
    SourceKind.listIterator.restartable = false ∧
    exNode2ph.train_seq_len > 1 ∧
    train_check_iterators [exNode2ph] (.list [.srcE exListIterSrc]) =
      .ok [.srcE exListIterSrc] := by
  refine ⟨rfl, by decide, rfl⟩

/-- C3 (amended): with the count and iterability checks passing,
validation rejects the call, before any training, exactly when some node
with more than one training phase is paired with a generator-typed
source; the rejection happens inside `train` before the per-node loop, so
the orchestrator returns that very error with no crash dump. -/
theorem c3_amended_generator_validation (temp : String) (nodes : List Node)
    (l : List Entry) (hlen : l.length = nodes.length)
    (hgood : check_iterable_entries 0 l = .ok ()) :
    ((∃ p ∈ nodes.zip l, p.1.train_seq_len > 1 ∧ entryIsGenerator p.2 = true) ↔
      ∃ m, train_check_iterators nodes (.list l) = .error (.flowException m))
  ∧ (∀ (fl : MFlow) (e : PyErr), fl.nodes = nodes →
      train_check_iterators nodes (.list l) = .error e →
      flow_train temp fl (.list l) = .error (e, [])) := by
  have hdef2 : ∀ e2, check_generators 0 (nodes.zip l) = .error e2 →
      train_check_iterators nodes (.list l) = .error e2 := by
    intro e2 hg
    simp [train_check_iterators, hgood, hlen, hg]
  have hdef3 : check_generators 0 (nodes.zip l) = .ok () →
      train_check_iterators nodes (.list l) = .ok l := by
    intro hg
    simp [train_check_iterators, hgood, hlen, hg]
  constructor
  · rw [check_generators_spec (nodes.zip l) 0]
    constructor
    · rintro ⟨m, hm⟩
      exact ⟨m, hdef2 _ hm⟩
    · rintro ⟨m, hm⟩
      cases hg : check_generators 0 (nodes.zip l) with
      | error e2 =>
        have he := hdef2 e2 hg
        rw [he] at hm
        cases hm
        exact ⟨m, rfl⟩
      | ok u =>
        have hgu : check_generators 0 (nodes.zip l) = .ok () := by
          cases u
          exact hg
        have he := hdef3 hgu
        rw [he] at hm
        cases hm
  · intro fl e hfl herr
    simp only [flow_train, hfl, herr]

theorem c3_witness :
    ∃ m, train_check_iterators [exNode2ph]
        (.list [.srcE { kind := .generator, items := [] }]) =
      .error (.flowException m) :=
  (c3_amended_generator_validation "t" [exNode2ph]
      [.srcE { kind := .generator, items := [] }] (by decide) (by decide)).1.mp
    ⟨(exNode2ph, .srcE { kind := .generator, items := [] }), by decide, by decide⟩

/-- C8: after every node has been processed, `train` closes the training
phase of the last node: `flow_train` ends with `_close_last_node`, which
explicitly calls `stop_training` on the last node; an already-finished
node (`TrainingFinishedException`) is tolerated silently, leaving the
flow unchanged with no warning; any other failure of this close is
escalated through the crash-recovery wrapper tagged with the last node's
index. -/
theorem c8_close_last_node (temp : String) (fl : MFlow) (d : DataArg) :
    (flow_train temp fl d =
      match train_check_iterators fl.nodes d with
      | .error e => .error (e, [])
      | .ok entries =>
        match train_steps temp fl.crashRec entries fl.nodes.length 0 fl.nodes with
        | .error e => .error e
        | .ok (nodes2, w) =>
          match close_last_node temp { fl with nodes := nodes2 } with
          | .error e => .error e
          | .ok fl2 => .ok (fl2, w))
  ∧ (∀ n, fl.nodes.getLast? = some n → n.stopFail = none → n.training = true →
      close_last_node temp fl =
        .ok { fl with nodes := fl.nodes.set (fl.nodes.length - 1) (stoppedNode n) })
  ∧ (∀ n, fl.nodes.getLast? = some n → n.stopFail = none → n.training = false →
      close_last_node temp fl = .ok fl)
  ∧ (∀ n m, fl.nodes.getLast? = some n → n.stopFail = some m →
      close_last_node temp fl =
        .error (propagate_exception temp fl.crashRec fl.nodes (.generic m)
          (fl.nodes.length - 1))) := by
  refine ⟨rfl, ?_, ?_, ?_⟩
  · intro n hl hsf htr
    simp [close_last_node, hl, node_stop_training, hsf, htr, stoppedNode]
  · intro n hl hsf htr
    simp [close_last_node, hl, node_stop_training, hsf, htr]
  · intro n m hl hsf
    simp [close_last_node, hl, node_stop_training, hsf]

theorem c8_witness :
    close_last_node "t" { nodes := [{ name := "L", remaining := 1 }] } =
      .ok { nodes := [{ name := "L", remaining := 0, training := false, stopCount := 1 }] } ∧
    close_last_node "t" { nodes := [{ name := "F", training := false }] } =
      .ok { nodes := [{ name := "F", training := false }] } := by
  constructor
  · have h := (c8_close_last_node "t" { nodes := [{ name := "L", remaining := 1 }] }
      (.list [])).2.1 { name := "L", remaining := 1 } (by decide) (by decide) (by decide)
    simpa using h
  · exact (c8_close_last_node "t" { nodes := [{ name := "F", training := false }] }
      (.list [])).2.2.1 { name := "F", training := false } (by decide) (by decide) (by decide)

/-! ### Checkpoint protocol -/

theorem cp_steps_attrs (temp : String) (cr : CrashRec) (entries : List Entry)
    (cps : List (Option CpFun)) :
    ∀ (cnt i : Nat) (nodes : List Node) (attrs : List (String × Int)) ns ats w,
      cp_steps temp cr entries cps cnt i nodes attrs = .ok (ns, ats, w) →
      ats = attrs ++ cp_dicts temp cr entries cps cnt i nodes := by
  intro cnt
  induction cnt with
  | zero =>
    intro i nodes attrs ns ats w h
    simp only [cp_steps] at h
    cases h
    simp [cp_dicts]
  | succ cnt' ih =>
    intro i nodes attrs ns ats w h
    rcases htn : train_node temp cr nodes (entrySource (entries.getD i .noneE)) i
      with e | ⟨nodes2, w1⟩
    · have hz : cp_steps temp cr entries cps (cnt' + 1) i nodes attrs = .error e := by
        simp only [cp_steps, htn]
      rw [hz] at h
      cases h
    · rcases hcs : (cp_steps temp cr entries cps cnt' (i + 1) nodes2
          (attrs ++ cpStepDict cps i (nodes2.getD i dfltNode))) with e2 | ⟨nodes3, ats3, w2⟩
      · have hz2 : cp_steps temp cr entries cps (cnt' + 1) i nodes attrs = .error e2 := by
          simp only [cp_steps, htn, hcs]
        rw [hz2] at h
        cases h
      · have hz3 : cp_steps temp cr entries cps (cnt' + 1) i nodes attrs =
            .ok (nodes3, ats3, w1 ++ w2) := by
          simp only [cp_steps, htn, hcs]
        rw [hz3] at h
        cases h
        have hrec := ih (i + 1) nodes2
          (attrs ++ cpStepDict cps i (nodes2.getD i dfltNode)) ns ats w2 hcs
        rw [hrec]
        have hd : cp_dicts temp cr entries cps (cnt' + 1) i nodes =
            cpStepDict cps i (nodes2.getD i dfltNode)
              ++ cp_dicts temp cr entries cps cnt' (i + 1) nodes2 := by
          simp only [cp_dicts, htn]
        rw [hd]
        simp [List.append_assoc]

theorem close_last_node_attrs (temp : String) (fl fl2 : MFlow)
    (h : close_last_node temp fl = .ok fl2) : fl2.attrs = fl.attrs := by
  rw [close_last_node] at h
  split at h
  · cases h
  · split at h
    · cases h
      rfl
    · cases h
    · cases h
      rfl

/-- C7: in the checkpointed training run, a checkpoint list whose length
differs from the number of nodes is rejected with the count-mismatch
`FlowException` before any training; and when the run succeeds, the
attribute state of the returned flow is the original attribute state
extended, in order, with exactly the dictionaries returned by the
registered checkpoints — each obtained by invoking the checkpoint with
the just-trained node, skipping absent callbacks and falsy results — so a
merged entry is readable back from the flow afterwards. -/
theorem c7_checkpoint_merge (temp : String) (fl : MFlow) (d : DataArg) (cps : CpArg) :
    (∀ (cpsl : List (Option CpFun)) (entries : List Entry), cps = .list cpsl →
      train_check_iterators fl.nodes d = .ok entries →
      cpsl.length ≠ fl.nodes.length →
      cp_train temp fl d cps =
        .error (.flowException (toString cpsl.length ++ " checkpoints specified, "
          ++ toString fl.nodes.length ++ " needed"), []))
  ∧ (∀ (entries : List Entry) (cpl : List (Option CpFun)) (fl2 : MFlow) (w : List String),
      train_check_iterators fl.nodes d = .ok entries →
      train_check_checkpoints fl.nodes cps = .ok cpl →
      cp_train temp fl d cps = .ok (fl2, w) →
      fl2.attrs = fl.attrs ++
        cp_dicts temp fl.crashRec entries cpl fl.nodes.length 0 fl.nodes ∧
      ∀ k, flow_getattr fl2 k = lookupAttr (fl.attrs ++
        cp_dicts temp fl.crashRec entries cpl fl.nodes.length 0 fl.nodes) k) := by
  constructor
  · intro cpsl entries hcps htci hlen
    subst hcps
    simp [cp_train, htci, train_check_checkpoints, hlen]
  · intro entries cpl fl2 w htci hcpl hrun
    have hmain : fl2.attrs = fl.attrs ++
        cp_dicts temp fl.crashRec entries cpl fl.nodes.length 0 fl.nodes := by
      rcases hcs : (cp_steps temp fl.crashRec entries cpl fl.nodes.length 0
          fl.nodes fl.attrs) with e | ⟨nodes2, attrs2, w1⟩
      · have hz : cp_train temp fl d cps = .error e := by
          simp only [cp_train, htci, hcpl, hcs]
        rw [hz] at hrun
        cases hrun
      · rcases hcl : (close_last_node temp { fl with nodes := nodes2, attrs := attrs2 })
          with e | fl3
        · have hz : cp_train temp fl d cps = .error e := by
            simp only [cp_train, htci, hcpl, hcs, hcl]
          rw [hz] at hrun
          cases hrun
        · have hok : cp_train temp fl d cps = .ok (fl3, w1) := by
            simp only [cp_train, htci, hcpl, hcs, hcl]
          rw [hok] at hrun
          cases hrun
          have h1 := cp_steps_attrs temp fl.crashRec entries cpl fl.nodes.length 0
            fl.nodes fl.attrs nodes2 attrs2 w hcs
          have h2 := close_last_node_attrs temp _ _ hcl
          rw [h2]
          exact h1
    exact ⟨hmain, fun k => by rw [flow_getattr, hmain]⟩

theorem c7_witness :
    cp_train "t" { cls := .checkpointFlow, nodes := [{ name := "N" }] }
        (.list [.srcE { kind := .pyList, items := [.arr [7]] }])
        (.list [some (fun _ => some [("k", (5 : Int))])]) =
      .ok ({ cls := .checkpointFlow,
             nodes := [{ name := "N", remaining := 0, training := false, stopCount := 1,
                         trainLog := [([7], [])] }],
             attrs := [("k", 5)] }, []) ∧
    flow_getattr
      { cls := .checkpointFlow,
        nodes := [{ name := "N", remaining := 0, training := false, stopCount := 1,
                    trainLog := [([7], [])] }],
        attrs := [("k", 5)] } "k" = some 5 := by
  have hrun : cp_train "t" { cls := .checkpointFlow, nodes := [{ name := "N" }] }
      (.list [.srcE { kind := .pyList, items := [.arr [7]] }])
      (.list [some (fun _ => some [("k", (5 : Int))])]) =
      .ok ({ cls := .checkpointFlow,
             nodes := [{ name := "N", remaining := 0, training := false, stopCount := 1,
                         trainLog := [([7], [])] }],
             attrs := [("k", 5)] }, []) := by rfl
  have hthm := (c7_checkpoint_merge "t" { cls := .checkpointFlow, nodes := [{ name := "N" }] }
      (.list [.srcE { kind := .pyList, items := [.arr [7]] }])
      (.list [some (fun _ => some [("k", (5 : Int))])])).2
      [.srcE { kind := .pyList, items := [.arr [7]] }]
      [some (fun _ => some [("k", (5 : Int))])]
      { cls := .checkpointFlow,
        nodes := [{ name := "N", remaining := 0, training := false, stopCount := 1,
                    trainLog := [([7], [])] }],
        attrs := [("k", 5)] } [] rfl rfl hrun
  exact ⟨hrun, (hthm.2 "k").trans (by rfl)⟩
